import Mathlib

/-!
# rtop: host-configuration resolution, fleet connection and the polling loop

A shallow embedding of `sshconfig.go`, `sshhelper.go` and the control loop of
`main.go`, followed by theorems about the embedded functions.

Conventions of the embedding

* Go `string` values are Lean `String`s; `len(s) > 0` is `s.length > 0`, and
  where the code indexes the bytes of a string (`path.Match`) the UTF-8
  encoding of the string is taken.
* Go `int` fields are `Int`s: the code only compares them with `0`.
* A Go `map[string]T` is an association list `List (String × T)` with pairwise
  distinct keys; the order of the list is the order in which a `range` loop
  happens to visit the map, which Go leaves unspecified.  Indexing `m[k]` is
  `List.lookup k m`.
* A run-time panic is the result `none` of a function into `Option`.
* Calls that leave the program (`ssh.Dial`, `getAllStats`) are recorded in a
  trace; what `ssh.Dial` answers is a parameter of the embedding.
* Writes to the log and to the terminal are not part of the embedding.
-/

namespace Rtop

/-! ## `sshconfig.go`: sections and the field-wise merge -/

/-- The Go struct `Section`. -/
structure Section where
  Hostname : String := ""
  Port : Int := 0
  User : String := ""
  IdentityFile : String := ""
  deriving DecidableEq, Repr

/-- The four results `(host, port, user, keyfile)` of `getFull` and
`getSshEntry`. -/
structure Entry where
  host : String
  port : Int
  user : String
  keyfile : String
  deriving DecidableEq, Repr

/-- The method `(s *Section) getFull(name, def)`.  Every result starts at its
zero value and is assigned by one `if / else if` per field; the parameter
`name` is not read by the body. -/
def Section.getFull (s : Section) (_name : String) (dflt : Section) : Entry :=
  { host :=
      if s.Hostname.length > 0 then s.Hostname
      else if dflt.Hostname.length > 0 then dflt.Hostname
      else ""
    port :=
      if s.Port > 0 then s.Port
      else if dflt.Port > 0 then dflt.Port
      else 0
    user :=
      if s.User.length > 0 then s.User
      else if dflt.User.length > 0 then dflt.User
      else ""
    keyfile :=
      if s.IdentityFile.length > 0 then s.IdentityFile
      else if dflt.IdentityFile.length > 0 then dflt.IdentityFile
      else "" }

/-! ## The library function `path.Match`

`getSshEntry` calls `path.Match` of the Go standard library.  The functions
below follow `path/match.go` (`Match`, `scanChunk`, `matchChunk`, `getEsc`)
and `utf8.DecodeRuneInString`.  The library indexes a string by bytes and
decodes a rune only for `?` and for character classes, so the functions work
on the bytes of the UTF-8 encoding of the strings, a byte being a natural
number below 256.  Loops that shorten the pattern on every round are written
with a round counter that starts above the length of the pattern. -/

/-- The bytes of one character in UTF-8. -/
def encodeRune (c : Char) : List Nat :=
  let n := c.toNat
  if n < 0x80 then [n]
  else if n < 0x800 then [0xC0 + n / 64, 0x80 + n % 64]
  else if n < 0x10000 then [0xE0 + n / 4096, 0x80 + n / 64 % 64, 0x80 + n % 64]
  else [0xF0 + n / 262144, 0x80 + n / 4096 % 64, 0x80 + n / 64 % 64, 0x80 + n % 64]

/-- The bytes of a Go string, `[]byte(s)`. -/
def stringBytes (s : String) : List Nat :=
  (s.data.map encodeRune).flatten

/-- The constant `utf8.RuneError`. -/
def RuneError : Nat := 0xFFFD

/-- The function `utf8.DecodeRuneInString(s)`, returning the rune and its
width in bytes; an invalid or short encoding is `(RuneError, 1)`. -/
def DecodeRuneInString (s : List Nat) : Nat × Nat :=
  match s with
  | [] => (RuneError, 0)
  | s0 :: t =>
    if s0 < 0x80 then (s0, 1)
    else if s0 < 0xC2 ∨ 0xF4 < s0 then (RuneError, 1)
    else
      let sz := if s0 < 0xE0 then 2 else if s0 < 0xF0 then 3 else 4
      let lo := if s0 = 0xE0 then 0xA0 else if s0 = 0xF0 then 0x90 else 0x80
      let hi := if s0 = 0xED then 0x9F else if s0 = 0xF4 then 0x8F else 0xBF
      if s.length < sz then (RuneError, 1)
      else
        match t with
        | [] => (RuneError, 1)
        | s1 :: t1 =>
          if s1 < lo ∨ hi < s1 then (RuneError, 1)
          else if sz ≤ 2 then (s0 % 32 * 64 + s1 % 64, 2)
          else
            match t1 with
            | [] => (RuneError, 1)
            | s2 :: t2 =>
              if s2 < 0x80 ∨ 0xBF < s2 then (RuneError, 1)
              else if sz ≤ 3 then (s0 % 16 * 4096 + s1 % 64 * 64 + s2 % 64, 3)
              else
                match t2 with
                | [] => (RuneError, 1)
                | s3 :: _ =>
                  if s3 < 0x80 ∨ 0xBF < s3 then (RuneError, 1)
                  else (s0 % 8 * 262144 + s1 % 64 * 4096 + s2 % 64 * 64 + s3 % 64, 4)

/-- The error value `path.ErrBadPattern`. -/
inductive PathError where
  | ErrBadPattern
  deriving DecidableEq, Repr

/-- The three results `(rest, ok, err)` of `matchChunk`: malformed pattern
(`err != nil`), no match (`ok = false`), or a match leaving `rest`. -/
inductive ChunkResult where
  | bad
  | fail
  | ok (rest : List Nat)
  deriving DecidableEq, Repr

/-- The first loop of `scanChunk`: remove leading stars, remembering whether
there was one. -/
def dropStars : List Nat → Bool × List Nat
  | [] => (false, [])
  | c :: p => if c = '*'.toNat then (true, (dropStars p).2) else (false, c :: p)

/-- The `Scan` loop of `scanChunk`: the index at which the chunk ends, a star
outside brackets or the end of the pattern. -/
def scanIndex : Bool → List Nat → Nat
  | _, [] => 0
  | inrange, c :: rest =>
    if c = '\\'.toNat then
      match rest with
      | [] => 1
      | _ :: rest2 => 2 + scanIndex inrange rest2
    else if c = '['.toNat then 1 + scanIndex true rest
    else if c = ']'.toNat then 1 + scanIndex false rest
    else if c = '*'.toNat then (if !inrange then 0 else 1 + scanIndex inrange rest)
    else 1 + scanIndex inrange rest

/-- The function `scanChunk(pattern)`, returning `(star, chunk, rest)`. -/
def scanChunk (pattern : List Nat) : Bool × List Nat × List Nat :=
  let sp := dropStars pattern
  let i := scanIndex false sp.2
  (sp.1, sp.2.take i, sp.2.drop i)

/-- The function `getEsc(chunk)`: one possibly escaped rune of a character
class and the chunk after it; `none` is `ErrBadPattern`. -/
def getEsc (chunk : List Nat) : Option (Nat × List Nat) :=
  match chunk with
  | [] => none
  | c :: rest =>
    if c = '-'.toNat ∨ c = ']'.toNat then none
    else
      let chunk1 := if c = '\\'.toNat then rest else chunk
      if chunk1.isEmpty then none
      else
        let rn := DecodeRuneInString chunk1
        let nchunk := chunk1.drop rn.2
        if rn.1 = RuneError ∧ rn.2 = 1 then none
        else if nchunk.isEmpty then none
        else some (rn.1, nchunk)

/-- The range loop inside the `'['` case of `matchChunk`; `r` is the rune read
from the name (`0` once the match has failed).  Returns the flag `match` and
the chunk after the closing bracket; `none` is `ErrBadPattern`. -/
def classLoop : Nat → Nat → List Nat → Bool → Nat → Option (Bool × List Nat)
  | 0, _, _, _, _ => none
  | rounds + 1, r, chunk, matched, nrange =>
    if chunk.head? = some ']'.toNat ∧ nrange > 0 then some (matched, chunk.tail)
    else
      match getEsc chunk with
      | none => none
      | some (lo, chunk1) =>
        if chunk1.head? = some '-'.toNat then
          match getEsc chunk1.tail with
          | none => none
          | some (hi, chunk3) =>
            classLoop rounds r chunk3 (matched || (decide (lo ≤ r) && decide (r ≤ hi)))
              (nrange + 1)
        else
          classLoop rounds r chunk1 (matched || (decide (lo ≤ r) && decide (r ≤ lo)))
            (nrange + 1)

/-- The loop of `matchChunk(chunk, s)` with its variable `failed`. -/
def matchChunkLoop : Nat → List Nat → List Nat → Bool → ChunkResult
  | 0, _, _, _ => ChunkResult.bad
  | rounds + 1, chunk, s, failed0 =>
    match chunk with
    | [] => if failed0 then ChunkResult.fail else ChunkResult.ok s
    | c :: chunk1 =>
      let failed := failed0 || s.isEmpty
      if c = '['.toNat then
        let r : Nat := if failed then 0 else (DecodeRuneInString s).1
        let s1 := if failed then s else s.drop (DecodeRuneInString s).2
        let negated := chunk1.head? = some '^'.toNat
        let chunk2 := if negated then chunk1.tail else chunk1
        match classLoop (chunk2.length + 1) r chunk2 false 0 with
        | none => ChunkResult.bad
        | some (matched, chunk3) =>
          matchChunkLoop rounds chunk3 s1 (failed || (matched == decide negated))
      else if c = '?'.toNat then
        matchChunkLoop rounds chunk1 (if failed then s else s.drop (DecodeRuneInString s).2)
          (failed || (s.head? == some '/'.toNat))
      else if c = '\\'.toNat then
        match chunk1 with
        | [] => ChunkResult.bad
        | d :: chunk2 =>
          matchChunkLoop rounds chunk2 (if failed then s else s.tail)
            (failed || (s.head? != some d))
      else
        matchChunkLoop rounds chunk1 (if failed then s else s.tail)
          (failed || (s.head? != some c))

/-- The function `matchChunk(chunk, s)`. -/
def matchChunk (chunk s : List Nat) : ChunkResult :=
  matchChunkLoop (chunk.length + 1) chunk s false

/-- The result of the inner loop of `Match` that lets a star swallow `i + 1`
bytes of the name. -/
inductive SkipResult where
  | bad
  | none
  | found (rest : List Nat)
  deriving DecidableEq, Repr

/-- The loop `for i := 0; i < len(name) && name[i] != '/'; i++` of `Match`,
which tries `matchChunk(chunk, name[i+1:])` byte by byte; `last` says that no
pattern is left after the chunk. -/
def starSkip (chunk : List Nat) (last : Bool) : List Nat → SkipResult
  | [] => SkipResult.none
  | c :: rest =>
    if c = '/'.toNat then SkipResult.none
    else
      match matchChunk chunk rest with
      | ChunkResult.ok t =>
        if last && !t.isEmpty then starSkip chunk last rest
        else SkipResult.found t
      | ChunkResult.bad => SkipResult.bad
      | ChunkResult.fail => starSkip chunk last rest

/-- The closing loop of `Match`: before answering "no match", check that the
rest of the pattern is well formed. -/
def checkRest : Nat → List Nat → Option PathError
  | 0, _ => none
  | rounds + 1, pattern =>
    if pattern.isEmpty then none
    else
      let sc := scanChunk pattern
      match matchChunk sc.2.1 [] with
      | ChunkResult.bad => some PathError.ErrBadPattern
      | _ => checkRest rounds sc.2.2

/-- The `Pattern` loop of `Match`, returning `(matched, err)`. -/
def matchLoop : Nat → List Nat → List Nat → Bool × Option PathError
  | 0, _, _ => (false, some PathError.ErrBadPattern)
  | rounds + 1, pattern, name =>
    if pattern.isEmpty then (name.isEmpty, none)
    else
      let sc := scanChunk pattern
      let star := sc.1
      let chunk := sc.2.1
      let rest := sc.2.2
      if star && chunk.isEmpty then (!name.contains '/'.toNat, none)
      else
        let afterFirst : Bool × Option PathError :=
          match (if star then starSkip chunk rest.isEmpty name else SkipResult.none) with
          | SkipResult.found t => matchLoop rounds rest t
          | SkipResult.bad => (false, some PathError.ErrBadPattern)
          | SkipResult.none => (false, checkRest (rest.length + 1) rest)
        match matchChunk chunk name with
        | ChunkResult.ok t =>
          if t.isEmpty || !rest.isEmpty then matchLoop rounds rest t
          else afterFirst
        | ChunkResult.bad => (false, some PathError.ErrBadPattern)
        | ChunkResult.fail => afterFirst

/-- The function `path.Match(pattern, name)`. -/
def pathMatch (pattern name : String) : Bool × Option PathError :=
  matchLoop ((stringBytes pattern).length + 1) (stringBytes pattern) (stringBytes name)

/-! ## `sshconfig.go`: the directory and `getSshEntry` -/

/-- The type of the global `HostInfo`, a `map[string]Section`: its entries in
the order in which `range` visits them. -/
abbrev HostDirectory := List (String × Section)

/-- The opening lines of `getSshEntry`: `def` is `Section{Hostname: name}`,
replaced by `HostInfo["*"]` when that key is present. -/
def defaultRecord (HostInfo : HostDirectory) (name : String) : Section :=
  match HostInfo.lookup "*" with
  | some defcfg => defcfg
  | none => { Hostname := name }

/-- The loop `for h, s := range HostInfo` of `getSshEntry`, with the function
called as `path.Match` as an argument: the first visited entry with
`path.Match(h, name)` true and no error is merged and returned; when the loop
ends the fields of `def` are returned as they are. -/
def scanEntries (Match : String → String → Bool × Option PathError) (name : String)
    (dflt : Section) : List (String × Section) → Entry
  | [] => ⟨dflt.Hostname, dflt.Port, dflt.User, dflt.IdentityFile⟩
  | (h, s) :: rest =>
    if (Match h name).1 && (Match h name).2 == none then s.getFull name dflt
    else scanEntries Match name dflt rest

/-- The body of `getSshEntry(name)`, with the global `HostInfo` and the
function called as `path.Match` as arguments. -/
def getSshEntryWith (Match : String → String → Bool × Option PathError)
    (HostInfo : HostDirectory) (name : String) : Entry :=
  let dflt := defaultRecord HostInfo name
  match HostInfo.lookup name with
  | some s => s.getFull name dflt
  | none => scanEntries Match name dflt HostInfo

/-- The function `getSshEntry(name)`: the body above with `path.Match`. -/
def getSshEntry (HostInfo : HostDirectory) (name : String) : Entry :=
  getSshEntryWith pathMatch HostInfo name

/-! ## `sshconfig.go`: `parseSshConfig` -/

/-- A value that `json.Unmarshal` stores in an `interface{}`: `nil`, `bool`,
`float64`, `string`, `[]interface{}` or `map[string]interface{}`.  The code
only asks whether a value is a `string`. -/
inductive Value where
  | null
  | bool (b : Bool)
  | number (x : Rat)
  | string (s : String)
  | array (xs : List Value)
  | object (kvs : List (String × Value))

/-- One configuration record, a `map[string]interface{}`. -/
abbrev Record := List (String × Value)

/-- The test `_, ok := c[key]`. -/
def hasKey (c : Record) (key : String) : Bool :=
  (c.lookup key).isSome

/-- The loop `for i := 0; i < len(config); i++` of `parseSshConfig`: the four
presence tests in the order of the source, each returning `false` at once. -/
def parseLoop : List Record → Bool
  | [] => true
  | c :: rest =>
    if !hasKey c "name" then false
    else if !hasKey c "remote" then false
    else if !hasKey c "username" then false
    else if !hasKey c "password" then false
    else parseLoop rest

/-- The function `parseSshConfig(config)`. -/
def parseSshConfig (config : List Record) : Bool :=
  if config.length < 1 then false
  else parseLoop config

/-! ## `sshhelper.go`: `sshConnect` -/

/-- The Go struct `Server`; `κ` stands for `*ssh.Client`. -/
structure Server (κ : Type) where
  name : String
  client : κ

/-- What one call `ssh.Dial("tcp", addr, config)` is given that depends on the
record: the address and the user and password of the client configuration. -/
structure DialCall where
  addr : String
  user : String
  password : String
  deriving DecidableEq, Repr

/-- The type assertion `v.(string)` on the result of indexing a record; a
missing key gives the `nil` interface, on which the assertion panics as it
does on every value that is not a string. -/
def assertString : Option Value → Option String
  | some (Value.string s) => some s
  | _ => none

/-- The loop `for i := 0; i < len(val); i++` of `sshConnect`, with the slice
`servers` and the trace of dial calls made so far.  The assertions run in the
order of the source: password, username, port (only when the key is present),
remote, and, after a successful dial only, name. -/
def sshConnectLoop {κ : Type} (dial : DialCall → Option κ) :
    List Record → List (Server κ) → List DialCall → Option (List (Server κ) × List DialCall)
  | [], servers, trace => some (servers, trace)
  | c :: rest, servers, trace =>
    match assertString (c.lookup "password") with
    | none => none
    | some password =>
      match assertString (c.lookup "username") with
      | none => none
      | some username =>
        match (if hasKey c "port" then assertString (c.lookup "port") else some "22") with
        | none => none
        | some port =>
          match assertString (c.lookup "remote") with
          | none => none
          | some remote =>
            let call : DialCall := ⟨remote ++ ":" ++ port, username, password⟩
            match dial call with
            | none => sshConnectLoop dial rest servers (trace ++ [call])
            | some sshClient =>
              match assertString (c.lookup "name") with
              | none => none
              | some name =>
                sshConnectLoop dial rest (servers ++ [⟨name, sshClient⟩]) (trace ++ [call])

/-- The function `sshConnect(val)`: `make([]*Server, 0, len(val)-1)` panics
when the capacity is negative, then the loop runs.  The result is the slice of
servers together with the trace of dial calls. -/
def sshConnect {κ : Type} (dial : DialCall → Option κ) (val : List Record) :
    Option (List (Server κ) × List DialCall) :=
  if (val.length : Int) - 1 < 0 then none
  else sshConnectLoop dial val [] []

/-! ## `main.go`: the sweep and the loop -/

/-- The loop of `showStats(output, servers)`: one call of the collector
`getAllStats` per server, in slice order, appended to the trace of calls. -/
def showStats {σ : Type} : List σ → List σ → List σ
  | [], calls => calls
  | server :: rest, calls => showStats rest (calls ++ [server])

/-- What the `select` of the loop in `main` receives. -/
inductive Event where
  | sig
  | tick
  deriving DecidableEq, Repr

/-- The variables of the loop in `main`: the flag `done` and the trace of
collector calls. -/
structure LoopState (σ : Type) where
  done : Bool
  calls : List σ

/-- One round of `for !done { select { ... } }`: nothing is received once
`done` is set; a signal sets `done`; a tick runs `showStats`. -/
def step {σ : Type} (servers : List σ) (st : LoopState σ) (e : Event) : LoopState σ :=
  if st.done then st
  else
    match e with
    | Event.sig => { st with done := true }
    | Event.tick => { st with calls := showStats servers st.calls }

/-- The tail of `main` from `showStats(output, servers)` on: one sweep, then
the loop fed with the events in the order they are received. -/
def mainLoop {σ : Type} (servers : List σ) (events : List Event) : LoopState σ :=
  events.foldl (step servers) { done := false, calls := showStats servers [] }

/-! ## The rule of the specification for the merge -/

/-- The merge as the specification words it: per field, the value of the
specific record when it is non-empty (strings) or non-zero (port), otherwise
the value of the default record, otherwise the zero value. -/
def getFullClaimed (s dflt : Section) : Entry :=
  { host := if s.Hostname ≠ "" then s.Hostname else if dflt.Hostname ≠ "" then dflt.Hostname else ""
    port := if s.Port ≠ 0 then s.Port else if dflt.Port ≠ 0 then dflt.Port else 0
    user := if s.User ≠ "" then s.User else if dflt.User ≠ "" then dflt.User else ""
    keyfile :=
      if s.IdentityFile ≠ "" then s.IdentityFile
      else if dflt.IdentityFile ≠ "" then dflt.IdentityFile
      else "" }

/-! ## Reading a record whose fields are strings -/

/-- The string stored under `key`, for records in which it is one. -/
def fieldOf (c : Record) (key : String) : String :=
  (assertString (c.lookup key)).getD ""

/-- The record has strings under `password`, `username`, `remote` and `name`,
and under `port` when that key is present. -/
def stringFields (c : Record) : Bool :=
  (assertString (c.lookup "password")).isSome && (assertString (c.lookup "username")).isSome &&
    (assertString (c.lookup "remote")).isSome && (assertString (c.lookup "name")).isSome &&
    (!hasKey c "port" || (assertString (c.lookup "port")).isSome)

/-- The dial that a record with string fields asks for: its remote address
joined by a colon to its port, `"22"` when it has none, with its user and
password. -/
def dialCallOf (c : Record) : DialCall :=
  ⟨fieldOf c "remote" ++ ":" ++ (if hasKey c "port" then fieldOf c "port" else "22"),
    fieldOf c "username", fieldOf c "password"⟩


/-- A dial used in examples: only the address `"down:22"` cannot be reached. -/
def exampleDial (call : DialCall) : Option Unit :=
  if call.addr = "down:22" then none else some ()

/-- Three records with string fields; the second names the unreachable host. -/
def exampleRecords : List Record :=
  [[("name", Value.string "a"), ("remote", Value.string "up"),
      ("username", Value.string "u"), ("password", Value.string "p")],
    [("name", Value.string "b"), ("remote", Value.string "down"),
      ("username", Value.string "u"), ("password", Value.string "p")],
    [("name", Value.string "c"), ("remote", Value.string "up"), ("port", Value.string "2222"),
      ("username", Value.string "u"), ("password", Value.string "p")]]

/-- The table `matchTests` of `path/match_test.go`: pattern, name and the
expected results. -/
def matchTests : List (String × String × Bool × Option PathError) :=
  [("abc", "abc", (true, none)),
    ("*", "abc", (true, none)),
    ("*c", "abc", (true, none)),
    ("a*", "a", (true, none)),
    ("a*", "abc", (true, none)),
    ("a*", "ab/c", (false, none)),
    ("a*/b", "abc/b", (true, none)),
    ("a*/b", "a/c/b", (false, none)),
    ("a*b*c*d*e*/f", "axbxcxdxe/f", (true, none)),
    ("a*b*c*d*e*/f", "axbxcxdxexxx/f", (true, none)),
    ("a*b*c*d*e*/f", "axbxcxdxe/xxx/f", (false, none)),
    ("a*b*c*d*e*/f", "axbxcxdxexxx/fff", (false, none)),
    ("a*b?c*x", "abxbbxdbxebxczzx", (true, none)),
    ("a*b?c*x", "abxbbxdbxebxczzy", (false, none)),
    ("ab[c]", "abc", (true, none)),
    ("ab[b-d]", "abc", (true, none)),
    ("ab[e-g]", "abc", (false, none)),
    ("ab[^c]", "abc", (false, none)),
    ("ab[^b-d]", "abc", (false, none)),
    ("ab[^e-g]", "abc", (true, none)),
    ("a\\*b", "a*b", (true, none)),
    ("a\\*b", "ab", (false, none)),
    ("a?b", "a☺b", (true, none)),
    ("a[^a]b", "a☺b", (true, none)),
    ("a???b", "a☺b", (false, none)),
    ("a[^a][^a][^a]b", "a☺b", (false, none)),
    ("[a-ζ]*", "α", (true, none)),
    ("*[a-ζ]", "A", (false, none)),
    ("a?b", "a/b", (false, none)),
    ("a*b", "a/b", (false, none)),
    ("[\\]a]", "]", (true, none)),
    ("[\\-]", "-", (true, none)),
    ("[x\\-]", "x", (true, none)),
    ("[x\\-]", "-", (true, none)),
    ("[x\\-]", "z", (false, none)),
    ("[\\-x]", "x", (true, none)),
    ("[\\-x]", "-", (true, none)),
    ("[\\-x]", "a", (false, none)),
    ("[]a]", "]", (false, some PathError.ErrBadPattern)),
    ("[-]", "-", (false, some PathError.ErrBadPattern)),
    ("[x-]", "x", (false, some PathError.ErrBadPattern)),
    ("[x-]", "-", (false, some PathError.ErrBadPattern)),
    ("[x-]", "z", (false, some PathError.ErrBadPattern)),
    ("[-x]", "x", (false, some PathError.ErrBadPattern)),
    ("[-x]", "-", (false, some PathError.ErrBadPattern)),
    ("[-x]", "a", (false, some PathError.ErrBadPattern)),
    ("\\", "a", (false, some PathError.ErrBadPattern)),
    ("[a-b-c]", "a", (false, some PathError.ErrBadPattern)),
    ("[", "a", (false, some PathError.ErrBadPattern)),
    ("[^", "a", (false, some PathError.ErrBadPattern)),
    ("[^bc", "a", (false, some PathError.ErrBadPattern)),
    ("a[", "a", (false, some PathError.ErrBadPattern)),
    ("a[", "ab", (false, some PathError.ErrBadPattern)),
    ("a[", "x", (false, some PathError.ErrBadPattern)),
    ("a/b[", "x", (false, some PathError.ErrBadPattern)),
    ("*x", "xxx", (true, none))]

/-! ## Lemmas on strings and association lists -/

theorem length_pos_iff_ne_empty (s : String) : s.length > 0 ↔ s ≠ "" := by
  constructor
  · intro h he
    subst he
    simp at h
  · intro h
    rcases s with ⟨l⟩
    cases l with
    | nil => exact absurd rfl h
    | cons c cs => simp [String.length]

theorem pick_string (a b : String) :
    (if a.length > 0 then a else if b.length > 0 then b else "") =
      if a ≠ "" then a else b := by
  by_cases ha : a = ""
  · subst ha
    by_cases hb : b = ""
    · subst hb
      simp
    · have : b.length > 0 := (length_pos_iff_ne_empty b).2 hb
      simp [this]
  · have : a.length > 0 := (length_pos_iff_ne_empty a).2 ha
    simp [ha, this]

theorem lookup_of_mem_nodup {β : Type} (k : String) (v : β) :
    ∀ l : List (String × β), (l.map Prod.fst).Nodup → (k, v) ∈ l → l.lookup k = some v
  | [], _, h => by simp at h
  | (k1, v1) :: rest, hnd, h => by
    rw [List.map_cons, List.nodup_cons] at hnd
    rcases List.mem_cons.1 h with heq | hin
    · cases heq
      simp [List.lookup]
    · have hne : k ≠ k1 := by
        intro he
        subst he
        exact hnd.1 (List.mem_map.2 ⟨(k, v), hin, rfl⟩)
      have hb : (k == k1) = false := by simpa using hne
      simp only [List.lookup, hb]
      exact lookup_of_mem_nodup k v rest hnd.2 hin

theorem lookup_none_of_ne {β : Type} (k : String) :
    ∀ l : List (String × β), (∀ e ∈ l, e.1 ≠ k) → l.lookup k = none
  | [], _ => rfl
  | (k1, v1) :: rest, h => by
    have hne : k ≠ k1 := fun he => h (k1, v1) (List.mem_cons_self _ _) he.symm
    have hb : (k == k1) = false := by simpa using hne
    simp only [List.lookup, hb]
    exact lookup_none_of_ne k rest (fun e he => h e (List.mem_cons_of_mem _ he))

theorem lookup_none_of_not_mem {β : Type} (k : String) (l : List (String × β))
    (h : ∀ v, (k, v) ∉ l) : l.lookup k = none := by
  apply lookup_none_of_ne
  intro e he hk
  exact h e.2 (by rw [← hk]; exact he)

theorem perm_pair {α : Type} (a b : α) (l : List α) (h : l.Perm [a, b]) :
    l = [a, b] ∨ l = [b, a] := by
  have hlen := h.length_eq
  match l, hlen with
  | [x, y], _ =>
    have hx : x ∈ [a, b] := h.subset (by simp)
    have hy : y ∈ [a, b] := h.subset (by simp)
    have ha : a ∈ [x, y] := h.symm.subset (by simp)
    have hb : b ∈ [x, y] := h.symm.subset (by simp)
    simp only [List.mem_cons, List.mem_singleton, List.not_mem_nil, or_false] at hx hy ha hb
    by_cases hab : a = b
    · subst hab
      rcases hx with rfl | rfl <;> rcases hy with rfl | rfl <;> simp
    · rcases hx with rfl | rfl <;> rcases hy with rfl | rfl
      · rcases hb with hb | hb <;> exact absurd hb.symm hab
      · simp
      · simp
      · rcases ha with ha | ha <;> exact absurd ha hab

/-! ## The model of `path.Match` on the table of the library's own test -/

theorem pathMatch_matchTests : ∀ t ∈ matchTests, pathMatch t.1 t.2.1 = t.2.2 := by
  decide

/-- A star skips bytes, not runes: `"*??"` matches the single rune `"☺"` of
three bytes, the star taking the first byte and each `?` one of the other two;
the scan of `getSshEntry` therefore selects such an entry. -/
theorem pathMatch_star_skips_bytes :
    stringBytes "☺" = [0xE2, 0x98, 0xBA] ∧
      pathMatch "*??" "☺" = (true, none) ∧
      pathMatch "*???" "☺" = (false, none) ∧
      (getSshEntry [("*??", { User := "x" })] "☺").user = "x" := by
  decide

/-! ## `getFull` -/

/-- C2, as stated, fails: with a specific port of `-1` and a default port of
`22`, `getFull` returns port `22`, whereas the rule "the specific value when it
is non-zero" returns `-1`. -/
theorem getFull_negative_port_differs :
    (Section.getFull { Port := -1 } "h" { Port := 22 }).port = 22 ∧
      (getFullClaimed { Port := -1 } { Port := 22 }).port = -1 ∧
      Section.getFull { Port := -1 } "h" { Port := 22 } ≠
        getFullClaimed { Port := -1 } { Port := 22 } := by
  decide

/-- C2, amended: `getFull` decides the four fields independently; a string
field is the specific record's value when that is non-empty and the default
record's value otherwise, and the port is the specific port when it is
positive, otherwise the default port when that is positive, otherwise `0`.
On ports that are not negative this is the rule of the specification, and a
specific record that lacks only the port keeps its own hostname, user and
identity file and takes the port alone from the default record. -/
theorem getFull_fieldwise (s dflt : Section) (name : String) :
    s.getFull name dflt =
        { host := if s.Hostname ≠ "" then s.Hostname else dflt.Hostname
          port := if 0 < s.Port then s.Port else if 0 < dflt.Port then dflt.Port else 0
          user := if s.User ≠ "" then s.User else dflt.User
          keyfile := if s.IdentityFile ≠ "" then s.IdentityFile else dflt.IdentityFile } ∧
      (0 ≤ s.Port → 0 ≤ dflt.Port → s.getFull name dflt = getFullClaimed s dflt) ∧
      (s.Port = 0 → s.Hostname ≠ "" → s.User ≠ "" → s.IdentityFile ≠ "" →
        s.getFull name dflt =
          { host := s.Hostname
            port := if 0 < dflt.Port then dflt.Port else 0
            user := s.User
            keyfile := s.IdentityFile }) := by
  have hmain : s.getFull name dflt =
      { host := if s.Hostname ≠ "" then s.Hostname else dflt.Hostname
        port := if 0 < s.Port then s.Port else if 0 < dflt.Port then dflt.Port else 0
        user := if s.User ≠ "" then s.User else dflt.User
        keyfile := if s.IdentityFile ≠ "" then s.IdentityFile else dflt.IdentityFile } := by
    unfold Section.getFull
    rw [pick_string, pick_string, pick_string]
  refine ⟨hmain, ?_, ?_⟩
  · intro hs hd
    rw [hmain]
    unfold getFullClaimed
    have e1 : (if 0 < s.Port then s.Port else if 0 < dflt.Port then dflt.Port else 0) =
        (if s.Port ≠ 0 then s.Port else if dflt.Port ≠ 0 then dflt.Port else 0) := by
      by_cases h1 : s.Port = 0
      · by_cases h2 : dflt.Port = 0
        · simp [h1, h2]
        · have : 0 < dflt.Port := lt_of_le_of_ne hd (Ne.symm h2)
          simp [h1, h2, this]
      · have : 0 < s.Port := lt_of_le_of_ne hs (Ne.symm h1)
        simp [h1, this]
    have e2 : ∀ a b : String, (if a ≠ "" then a else b) =
        (if a ≠ "" then a else if b ≠ "" then b else "") := by
      intro a b
      by_cases ha : a = ""
      · by_cases hb : b = ""
        · simp [ha, hb]
        · simp [ha, hb]
      · simp [ha]
    rw [e1, e2 s.Hostname, e2 s.User, e2 s.IdentityFile]
  · intro hp hh hu hi
    rw [hmain]
    simp [hp, hh, hu, hi]

/-- The amended C2 at a record that lacks only its port, and at two records
without a negative port. -/
theorem getFull_fieldwise_witness :
    Section.getFull ⟨"h1", 0, "deploy", "id_rsa"⟩ "web" ⟨"", 2222, "ops", ""⟩ =
        ⟨"h1", 2222, "deploy", "id_rsa"⟩ ∧
      Section.getFull ⟨"", 0, "deploy", ""⟩ "web" ⟨"gw", 22, "ops", "key"⟩ =
        getFullClaimed ⟨"", 0, "deploy", ""⟩ ⟨"gw", 22, "ops", "key"⟩ := by
  have h := (getFull_fieldwise ⟨"h1", 0, "deploy", "id_rsa"⟩ ⟨"", 2222, "ops", ""⟩ "web").2.2
    rfl (by decide) (by decide) (by decide)
  refine ⟨?_, (getFull_fieldwise ⟨"", 0, "deploy", ""⟩ ⟨"gw", 22, "ops", "key"⟩ "web").2.1
    (by decide) (by decide)⟩
  rw [h]
  decide

/-! ## `getSshEntry` -/

/-- C1: when the directory (keys pairwise distinct) has an entry whose key is
exactly `name`, `getSshEntry` returns that entry merged by `getFull` with
the default record: the `"*"` entry when there is one,
`Section{Hostname: name}` when there is none.  The statement is in terms of which entries the directory
holds, so it is the same for every order of the scan and whatever other keys
match the name. -/
theorem getSshEntry_exact (HostInfo : HostDirectory) (name : String) (s : Section)
    (hkeys : (HostInfo.map Prod.fst).Nodup) (hmem : (name, s) ∈ HostInfo) :
    (∀ defcfg, ("*", defcfg) ∈ HostInfo →
        getSshEntry HostInfo name = s.getFull name defcfg) ∧
      ((∀ defcfg, ("*", defcfg) ∉ HostInfo) →
        getSshEntry HostInfo name = s.getFull name { Hostname := name }) := by
  have hs : HostInfo.lookup name = some s := lookup_of_mem_nodup name s HostInfo hkeys hmem
  constructor
  · intro defcfg hd
    have hstar : HostInfo.lookup "*" = some defcfg :=
      lookup_of_mem_nodup "*" defcfg HostInfo hkeys hd
    simp [getSshEntry, getSshEntryWith, defaultRecord, hs, hstar]
  · intro hno
    have hstar : HostInfo.lookup "*" = none := lookup_none_of_not_mem "*" HostInfo hno
    simp [getSshEntry, getSshEntryWith, defaultRecord, hs, hstar]

/-- C1 at a directory in which a pattern visited first also matches the name. -/
theorem getSshEntry_exact_witness :
    getSshEntry [("web-*", { User := "deploy" }), ("*", { User := "ops", Port := 22 }),
        ("web-3", { Hostname := "10.0.0.3" })] "web-3" =
        Section.getFull { Hostname := "10.0.0.3" } "web-3" { User := "ops", Port := 22 } ∧
      getSshEntry [("web-*", { User := "deploy" }), ("web-3", { Port := 2222 })] "web-3" =
        Section.getFull { Port := 2222 } "web-3" { Hostname := "web-3" } :=
  ⟨(getSshEntry_exact
      [("web-*", { User := "deploy" }), ("*", { User := "ops", Port := 22 }),
        ("web-3", { Hostname := "10.0.0.3" })] "web-3" { Hostname := "10.0.0.3" }
      (by decide) (by decide)).1 { User := "ops", Port := 22 } (by decide),
    (getSshEntry_exact
      [("web-*", { User := "deploy" }), ("web-3", { Port := 2222 })] "web-3" { Port := 2222 }
      (by decide) (by decide)).2 (by simp)⟩

/-- C3, as stated, fails in both orders of the scan: with the entries `"*"` and
`"web-*"` of the example, `getSshEntry("web-3")` is not
`("web-3", 22, "deploy", "")`; the host it returns is empty. -/
theorem getSshEntry_web3_not_claimed :
    getSshEntry [("*", { User := "ops", Port := 22 }), ("web-*", { User := "deploy" })] "web-3"
        ≠ ⟨"web-3", 22, "deploy", ""⟩ ∧
      getSshEntry [("web-*", { User := "deploy" }), ("*", { User := "ops", Port := 22 })] "web-3"
        ≠ ⟨"web-3", 22, "deploy", ""⟩ ∧
      (getSshEntry [("web-*", { User := "deploy" }), ("*", { User := "ops", Port := 22 })]
        "web-3").host = "" := by
  decide

/-- C3, amended: for every order in which the scan visits the two entries
`"*" -> {User: "ops", Port: 22}` and `"web-*" -> {User: "deploy"}`,
`getSshEntry("web-3")` returns host `""`, port `22` and keyfile `""`; the user
is `"deploy"` when `"web-*"` is visited first and `"ops"` when `"*"`, which
matches the name as well, is visited first. -/
theorem getSshEntry_web3 (order : HostDirectory)
    (h : order.Perm [("*", { User := "ops", Port := 22 }), ("web-*", { User := "deploy" })]) :
    (getSshEntry order "web-3").host = "" ∧
      (getSshEntry order "web-3").port = 22 ∧
      (getSshEntry order "web-3").keyfile = "" ∧
      (order.head?.map Prod.fst = some "web-*" → (getSshEntry order "web-3").user = "deploy") ∧
      (order.head?.map Prod.fst = some "*" → (getSshEntry order "web-3").user = "ops") := by
  rcases perm_pair _ _ order h with rfl | rfl <;> decide

/-- The amended C3 in the order that visits `"web-*"` first and in the order
that visits `"*"` first. -/
theorem getSshEntry_web3_witness :
    (getSshEntry [("*", { User := "ops", Port := 22 }), ("web-*", { User := "deploy" })]
        "web-3").user = "ops" ∧
      (getSshEntry [("web-*", { User := "deploy" }), ("*", { User := "ops", Port := 22 })]
        "web-3").host = "" ∧
      (getSshEntry [("web-*", { User := "deploy" }), ("*", { User := "ops", Port := 22 })]
        "web-3").user = "deploy" :=
  ⟨(getSshEntry_web3
      [("*", { User := "ops", Port := 22 }), ("web-*", { User := "deploy" })]
      (List.Perm.refl _)).2.2.2.2 (by decide),
    (getSshEntry_web3
      [("web-*", { User := "deploy" }), ("*", { User := "ops", Port := 22 })]
      (List.Perm.swap _ _ _)).1,
    (getSshEntry_web3
      [("web-*", { User := "deploy" }), ("*", { User := "ops", Port := 22 })]
      (List.Perm.swap _ _ _)).2.2.2.1 (by decide)⟩

/-- C4, as stated, fails: with the single entry `"*" -> {User: "ops"}` and the
name `"a/b"`, no key equals the name and no key matches it (a star does not
cross `/`), the default record has an empty hostname, and the host returned is
`""`, not the name. -/
theorem getSshEntry_unmatched_host_empty :
    (∀ e ∈ ([("*", { User := "ops" })] : HostDirectory), e.1 ≠ "a/b") ∧
      (∀ e ∈ ([("*", { User := "ops" })] : HostDirectory), (pathMatch e.1 "a/b").1 = false) ∧
      (defaultRecord [("*", { User := "ops" })] "a/b").Hostname = "" ∧
      (getSshEntry [("*", { User := "ops" })] "a/b").host = "" ∧
      (getSshEntry [("*", { User := "ops" })] "a/b").host ≠ "a/b" := by
  decide

/-- C4, amended: when no key equals the name and no key glob-matches it,
`getSshEntry` returns the four fields of the default record as they are,
the default record being the `"*"` entry if present and
`Section{Hostname: name}` if not; so the host is the name itself when there is
no `"*"` entry, and the hostname of the `"*"` entry, empty or not, when there
is one.  The proof does not look into the matcher: the statement holds for
every function `Match` put in the place of `path.Match` that reports no match
on the keys, and `getSshEntry` is the case `Match = pathMatch`. -/
theorem getSshEntry_unmatched (Match : String → String → Bool × Option PathError)
    (HostInfo : HostDirectory) (name : String)
    (hexact : ∀ e ∈ HostInfo, e.1 ≠ name)
    (hglob : ∀ e ∈ HostInfo, (Match e.1 name).1 = false) :
    getSshEntryWith Match HostInfo name =
        ⟨(defaultRecord HostInfo name).Hostname, (defaultRecord HostInfo name).Port,
          (defaultRecord HostInfo name).User, (defaultRecord HostInfo name).IdentityFile⟩ ∧
      (HostInfo.lookup "*" = none → getSshEntryWith Match HostInfo name = ⟨name, 0, "", ""⟩) ∧
      (∀ defcfg, HostInfo.lookup "*" = some defcfg →
        getSshEntryWith Match HostInfo name =
          ⟨defcfg.Hostname, defcfg.Port, defcfg.User, defcfg.IdentityFile⟩) := by
  have hnone : HostInfo.lookup name = none := lookup_none_of_ne name HostInfo hexact
  have hscan : ∀ (dflt : Section) (l : List (String × Section)),
      (∀ e ∈ l, (Match e.1 name).1 = false) →
      scanEntries Match name dflt l =
        ⟨dflt.Hostname, dflt.Port, dflt.User, dflt.IdentityFile⟩ := by
    intro dflt l
    induction l with
    | nil => intro _; rfl
    | cons e rest ih =>
      intro hl
      obtain ⟨k, v⟩ := e
      have hk : (Match k name).1 = false := hl (k, v) (List.mem_cons_self _ _)
      simp only [scanEntries, hk, Bool.false_and]
      exact ih (fun e he => hl e (List.mem_cons_of_mem _ he))
  have hmain : getSshEntryWith Match HostInfo name =
      ⟨(defaultRecord HostInfo name).Hostname, (defaultRecord HostInfo name).Port,
        (defaultRecord HostInfo name).User, (defaultRecord HostInfo name).IdentityFile⟩ := by
    simp only [getSshEntryWith, hnone]
    exact hscan _ _ hglob
  refine ⟨hmain, ?_, ?_⟩
  · intro hstar
    rw [hmain]
    simp [defaultRecord, hstar]
  · intro defcfg hstar
    rw [hmain]
    simp [defaultRecord, hstar]

/-- The amended C4 with `path.Match` as the matcher, at a directory with one
pattern that does not match, and at one whose `"*"` entry does not match a name
with a slash. -/
theorem getSshEntry_unmatched_witness :
    getSshEntry [("db-*", { User := "dba" })] "web-1" = ⟨"web-1", 0, "", ""⟩ ∧
      getSshEntry [("*", { User := "ops", Port := 22 })] "a/b" = ⟨"", 22, "ops", ""⟩ :=
  ⟨(getSshEntry_unmatched pathMatch [("db-*", { User := "dba" })] "web-1"
      (by decide) (by decide)).2.1 (by decide),
    (getSshEntry_unmatched pathMatch [("*", { User := "ops", Port := 22 })] "a/b"
      (by decide) (by decide)).2.2 { User := "ops", Port := 22 } (by decide)⟩

/-- C5: with exactly the entries `"web-*" -> A` and `"db-*" -> B`, for every
order of the scan `getSshEntry("web-1")` is `A.getFull("web-1",
Section{Hostname: "web-1"})`: `"web-*"` matches `"web-1"`, `"db-*"` does not,
and `B` is never selected. -/
theorem getSshEntry_web_not_db (A B : Section) (order : HostDirectory)
    (h : order.Perm [("web-*", A), ("db-*", B)]) :
    getSshEntry order "web-1" = A.getFull "web-1" { Hostname := "web-1" } ∧
      pathMatch "web-*" "web-1" = (true, none) ∧
      pathMatch "db-*" "web-1" = (false, none) := by
  have m1 : pathMatch "web-*" "web-1" = (true, none) := by decide
  have m2 : pathMatch "db-*" "web-1" = (false, none) := by decide
  have k1 : ("web-1" == "web-*") = false := by decide
  have k2 : ("web-1" == "db-*") = false := by decide
  have k3 : ("*" == "web-*") = false := by decide
  have k4 : ("*" == "db-*") = false := by decide
  refine ⟨?_, m1, m2⟩
  rcases perm_pair _ _ order h with rfl | rfl
  · simp [getSshEntry, getSshEntryWith, defaultRecord, List.lookup, scanEntries, m1, k1, k2, k3, k4]
  · simp [getSshEntry, getSshEntryWith, defaultRecord, List.lookup, scanEntries, m1, m2, k1, k2, k3, k4]

/-- C5 with `"db-*"` visited first. -/
theorem getSshEntry_web_not_db_witness :
    getSshEntry [("db-*", { User := "dba", Port := 5432 }), ("web-*", { User := "deploy" })]
        "web-1" = ⟨"web-1", 0, "deploy", ""⟩ := by
  have h := (getSshEntry_web_not_db { User := "deploy" } { User := "dba", Port := 5432 }
    [("db-*", { User := "dba", Port := 5432 }), ("web-*", { User := "deploy" })]
    (List.Perm.swap _ _ _)).1
  rw [h]
  decide

/-- C9: the scan depends on the order of the visit.  The directory with the
keys `"web-*"` and `"*-1"` (distinct, none equal to the name `"web-1"`) gives
user `"deploy"` when `"web-*"` is visited first and user `"ops"` when `"*-1"`
is, so two orders of the same entries give different results. -/
theorem getSshEntry_order_dependent :
    ∃ (d1 d2 : HostDirectory) (name : String),
      d1.Perm d2 ∧ (d1.map Prod.fst).Nodup ∧ (∀ e ∈ d1, e.1 ≠ name) ∧
        d1.lookup name = none ∧ d2.lookup name = none ∧
        getSshEntry d1 name ≠ getSshEntry d2 name ∧
        (getSshEntry d1 name).user = "deploy" ∧ (getSshEntry d2 name).user = "ops" := by
  refine ⟨[("web-*", { User := "deploy" }), ("*-1", { User := "ops" })],
    [("*-1", { User := "ops" }), ("web-*", { User := "deploy" })], "web-1",
    List.Perm.swap _ _ _, ?_, ?_, ?_, ?_, ?_, ?_, ?_⟩ <;> decide

/-! ## `parseSshConfig` -/

theorem parseLoop_iff (config : List Record) :
    parseLoop config = true ↔
      ∀ c ∈ config, hasKey c "name" = true ∧ hasKey c "remote" = true ∧
        hasKey c "username" = true ∧ hasKey c "password" = true := by
  induction config with
  | nil => simp [parseLoop]
  | cons c rest ih =>
    simp only [parseLoop, List.mem_cons, forall_eq_or_imp]
    cases h1 : hasKey c "name" <;> cases h2 : hasKey c "remote" <;>
      cases h3 : hasKey c "username" <;> cases h4 : hasKey c "password" <;> simp [ih]

theorem parseSshConfig_iff (config : List Record) :
    parseSshConfig config = true ↔
      config ≠ [] ∧ ∀ c ∈ config, hasKey c "name" = true ∧ hasKey c "remote" = true ∧
        hasKey c "username" = true ∧ hasKey c "password" = true := by
  unfold parseSshConfig
  cases config with
  | nil => simp
  | cons c rest =>
    have hlen : ¬ ((c :: rest).length < 1) := by simp
    rw [if_neg hlen, parseLoop_iff]
    simp

/-- C7: `parseSshConfig` returns `true` exactly when the list has at least one
record and every record has the four keys `name`, `remote`, `username` and
`password`.  Two lists whose records agree, position by position, on which keys
other than `port` they have get the same answer, so the `port` key never
matters; and a record missing a required key, wherever it stands, makes the
answer `false`. -/
theorem parseSshConfig_spec (config : List Record) :
    (parseSshConfig config = true ↔
        config ≠ [] ∧ ∀ c ∈ config, hasKey c "name" = true ∧ hasKey c "remote" = true ∧
          hasKey c "username" = true ∧ hasKey c "password" = true) ∧
      (∀ config2 : List Record,
        List.Forall₂ (fun c c2 => ∀ key, key ≠ "port" → hasKey c key = hasKey c2 key)
          config config2 →
        parseSshConfig config = parseSshConfig config2) ∧
      (∀ (before after : List Record) (c : Record), config = before ++ c :: after →
        (hasKey c "name" = false ∨ hasKey c "remote" = false ∨
          hasKey c "username" = false ∨ hasKey c "password" = false) →
        parseSshConfig config = false) := by
  refine ⟨parseSshConfig_iff config, ?_, ?_⟩
  · intro config2 h
    have hloop : parseLoop config = parseLoop config2 := by
      induction h with
      | nil => rfl
      | cons hc _ ih =>
        simp only [parseLoop]
        rw [hc "name" (by decide), hc "remote" (by decide), hc "username" (by decide),
          hc "password" (by decide), ih]
    unfold parseSshConfig
    rw [h.length_eq, hloop]
  · intro before after c hcfg hmiss
    cases hres : parseSshConfig config with
    | false => rfl
    | true =>
      have hall := ((parseSshConfig_iff config).1 hres).2 c (by rw [hcfg]; simp)
      rcases hmiss with h | h | h | h
      · rw [hall.1] at h; cases h
      · rw [hall.2.1] at h; cases h
      · rw [hall.2.2.1] at h; cases h
      · rw [hall.2.2.2] at h; cases h

/-- C7 at a two-record list whose second record has no password, and at two
lists that differ only in a `port` key. -/
theorem parseSshConfig_spec_witness :
    parseSshConfig
        [[("name", Value.string "a"), ("remote", Value.string "h"),
            ("username", Value.string "u"), ("password", Value.string "p")],
          [("name", Value.string "b"), ("remote", Value.string "h"),
            ("username", Value.string "u")]] = false ∧
      parseSshConfig
        [[("name", Value.string "a"), ("remote", Value.string "h"),
            ("username", Value.string "u"), ("password", Value.string "p")]] =
        parseSshConfig
          [[("port", Value.number 22), ("name", Value.string "a"), ("remote", Value.string "h"),
            ("username", Value.string "u"), ("password", Value.string "p")]] :=
  ⟨(parseSshConfig_spec _).2.2
      [[("name", Value.string "a"), ("remote", Value.string "h"),
        ("username", Value.string "u"), ("password", Value.string "p")]] []
      [("name", Value.string "b"), ("remote", Value.string "h"), ("username", Value.string "u")]
      rfl (Or.inr (Or.inr (Or.inr (by decide)))),
    (parseSshConfig_spec _).2.1 _
      (List.Forall₂.cons
        (fun key hkey => by
          have hb : (key == "port") = false := by simpa using hkey
          simp [hasKey, List.lookup, hb])
        List.Forall₂.nil)⟩

/-! ## `sshConnect` -/

theorem assertString_of_isSome (o : Option Value) (h : (assertString o).isSome = true) :
    assertString o = some ((assertString o).getD "") := by
  cases hv : assertString o with
  | none => rw [hv] at h; cases h
  | some v => rfl

theorem sshConnectLoop_spec {κ : Type} (dial : DialCall → Option κ) :
    ∀ (val : List Record) (servers : List (Server κ)) (trace : List DialCall),
      (∀ c ∈ val, stringFields c = true) →
      sshConnectLoop dial val servers trace =
        some (servers ++ val.filterMap (fun c =>
            (dial (dialCallOf c)).map (fun sshClient => ⟨fieldOf c "name", sshClient⟩)),
          trace ++ val.map dialCallOf)
  | [], servers, trace, _ => by simp [sshConnectLoop]
  | c :: rest, servers, trace, h => by
    have hc : stringFields c = true := h c (List.mem_cons_self _ _)
    have hrest : ∀ c2 ∈ rest, stringFields c2 = true :=
      fun c2 h2 => h c2 (List.mem_cons_of_mem _ h2)
    simp only [stringFields, Bool.and_eq_true, Bool.or_eq_true, Bool.not_eq_true_eq_eq_false] at hc
    obtain ⟨⟨⟨⟨hpw, hus⟩, hre⟩, hna⟩, hpo⟩ := hc
    have epw := assertString_of_isSome _ hpw
    have eus := assertString_of_isSome _ hus
    have ere := assertString_of_isSome _ hre
    have ena := assertString_of_isSome _ hna
    have epo : (if hasKey c "port" then assertString (c.lookup "port") else some "22") =
        some (if hasKey c "port" then fieldOf c "port" else "22") := by
      cases hk : hasKey c "port" with
      | false => simp
      | true =>
        rcases hpo with hpo | hpo
        · rw [hk] at hpo; cases hpo
        · simpa [fieldOf] using assertString_of_isSome _ hpo
    have ecall : (⟨(assertString (c.lookup "remote")).getD "" ++ ":" ++
          (if hasKey c "port" then fieldOf c "port" else "22"),
        (assertString (c.lookup "username")).getD "",
        (assertString (c.lookup "password")).getD ""⟩ : DialCall) = dialCallOf c := rfl
    rw [sshConnectLoop, epw, eus, epo, ere]
    simp only [ecall]
    cases hd : dial (dialCallOf c) with
    | none =>
      simp only []
      rw [sshConnectLoop_spec dial rest servers (trace ++ [dialCallOf c]) hrest]
      simp [hd]
    | some sshClient =>
      simp only []
      rw [ena]
      simp only []
      rw [sshConnectLoop_spec dial rest _ (trace ++ [dialCallOf c]) hrest]
      simp [hd, fieldOf]

theorem filterMap_names {κ : Type} (dial : DialCall → Option κ) (val : List Record) :
    (val.filterMap (fun c =>
        (dial (dialCallOf c)).map (fun sshClient => (⟨fieldOf c "name", sshClient⟩ : Server κ)))).map
        Server.name =
      (val.filter (fun c => (dial (dialCallOf c)).isSome)).map (fun c => fieldOf c "name") := by
  induction val with
  | nil => rfl
  | cons c rest ih =>
    cases hd : dial (dialCallOf c) with
    | none => simp [List.filterMap_cons, List.filter_cons, hd, ih]
    | some cl => simp [List.filterMap_cons, List.filter_cons, hd, ih]

theorem filterMap_count {κ : Type} (dial : DialCall → Option κ) (val : List Record) :
    (val.filterMap (fun c =>
        (dial (dialCallOf c)).map (fun sshClient => (⟨fieldOf c "name", sshClient⟩ : Server κ)))).length +
        (val.filter (fun c => (dial (dialCallOf c)).isNone)).length = val.length := by
  induction val with
  | nil => rfl
  | cons c rest ih =>
    cases hd : dial (dialCallOf c) with
    | none =>
      simp only [List.filterMap_cons, List.filter_cons, hd, Option.map_none', Option.isNone_none,
        if_true, List.length_cons]
      omega
    | some cl =>
      simp only [List.filterMap_cons, List.filter_cons, hd, Option.map_some', Option.isNone_some,
        Bool.false_eq_true, if_false, List.length_cons]
      omega

/-- C6: on a non-empty list of records whose fields are strings, whatever
`ssh.Dial` answers, `sshConnect` does not panic; it dials every record exactly
once, in input order, and returns one server per record whose dial succeeded,
in input order, carrying that record's name and the client of its dial.  With
`M` failed dials out of `N` the result has `N - M` servers. -/
theorem sshConnect_spec {κ : Type} (dial : DialCall → Option κ) (val : List Record)
    (hne : val ≠ []) (hstr : ∀ c ∈ val, stringFields c = true) :
    ∃ (servers : List (Server κ)) (trace : List DialCall),
      sshConnect dial val = some (servers, trace) ∧
        servers = val.filterMap (fun c =>
          (dial (dialCallOf c)).map (fun sshClient => ⟨fieldOf c "name", sshClient⟩)) ∧
        servers.map Server.name =
          (val.filter (fun c => (dial (dialCallOf c)).isSome)).map (fun c => fieldOf c "name") ∧
        servers.length + (val.filter (fun c => (dial (dialCallOf c)).isNone)).length =
          val.length ∧
        trace = val.map dialCallOf := by
  refine ⟨_, _, ?_, rfl, filterMap_names dial val, filterMap_count dial val, rfl⟩
  have hlen : ¬ ((val.length : Int) - 1 < 0) := by
    have : 0 < val.length := List.length_pos.2 hne
    omega
  rw [sshConnect, if_neg hlen, sshConnectLoop_spec dial val [] [] hstr]
  simp

/-- C6 at three records of which the second cannot be reached: two servers,
`a` and `c`, and three dials. -/
theorem sshConnect_spec_witness :
    ∃ (servers : List (Server Unit)) (trace : List DialCall),
      sshConnect exampleDial exampleRecords = some (servers, trace) ∧
        servers.map Server.name = ["a", "c"] ∧
        servers.length + 1 = 3 ∧
        trace = [⟨"up:22", "u", "p"⟩, ⟨"down:22", "u", "p"⟩, ⟨"up:2222", "u", "p"⟩] := by
  obtain ⟨servers, trace, hrun, _, hnames, hcount, htrace⟩ :=
    sshConnect_spec exampleDial exampleRecords (List.cons_ne_nil _ _) (by decide)
  have hfail :
      (exampleRecords.filter (fun c => (exampleDial (dialCallOf c)).isNone)).length = 1 := by
    decide
  have hlen : exampleRecords.length = 3 := rfl
  refine ⟨servers, trace, hrun, ?_, ?_, ?_⟩
  · rw [hnames]; decide
  · omega
  · rw [htrace]; decide

/-- C10, evaluated where it fails: `parseSshConfig` accepts a record whose
`port` is the JSON number `22`, and one whose `password` is a JSON number, and
on each of them `sshConnect` panics at the type assertion to string, whatever
`ssh.Dial` would answer.  The capacity `len(val)-1` is not what panics: it is
`0` here. -/
theorem sshConnect_panics_on_accepted_config {κ : Type} (dial : DialCall → Option κ) :
    parseSshConfig
        [[("name", Value.string "a"), ("remote", Value.string "h"),
          ("username", Value.string "u"), ("password", Value.string "p"),
          ("port", Value.number 22)]] = true ∧
      sshConnect dial
        [[("name", Value.string "a"), ("remote", Value.string "h"),
          ("username", Value.string "u"), ("password", Value.string "p"),
          ("port", Value.number 22)]] = none ∧
      parseSshConfig
        [[("name", Value.string "a"), ("remote", Value.string "h"),
          ("username", Value.string "u"), ("password", Value.number 1234)]] = true ∧
      sshConnect dial
        [[("name", Value.string "a"), ("remote", Value.string "h"),
          ("username", Value.string "u"), ("password", Value.number 1234)]] = none :=
  ⟨by decide, rfl, by decide, rfl⟩

/-! ## The loop of `main` -/

theorem showStats_eq {σ : Type} (servers calls : List σ) :
    showStats servers calls = calls ++ servers := by
  induction servers generalizing calls with
  | nil => simp [showStats]
  | cons x rest ih => simp [showStats, ih]

theorem foldl_step_done {σ : Type} (servers : List σ) (events : List Event)
    (st : LoopState σ) (h : st.done = true) : events.foldl (step servers) st = st := by
  induction events with
  | nil => rfl
  | cons e rest ih => simp [List.foldl_cons, step, h, ih]

theorem foldl_step_calls {σ : Type} (servers : List σ) (events : List Event) :
    ∀ st : LoopState σ, st.done = false →
      (events.foldl (step servers) st).calls =
        st.calls ++
          (List.replicate (events.takeWhile (fun e => e == Event.tick)).length servers).flatten := by
  induction events with
  | nil => intro st _; simp
  | cons e rest ih =>
    intro st h
    cases e with
    | sig =>
      have hs : step servers st Event.sig = { st with done := true } := by simp [step, h]
      have e1 : (Event.sig == Event.tick) = false := by decide
      rw [List.foldl_cons, hs, foldl_step_done servers rest _ rfl]
      simp [List.takeWhile_cons, e1]
    | tick =>
      have hs : step servers st Event.tick = { st with calls := showStats servers st.calls } := by
        simp [step, h]
      have e2 : (Event.tick == Event.tick) = true := by decide
      rw [List.foldl_cons, hs, ih ⟨st.done, showStats servers st.calls⟩ h]
      simp [List.takeWhile_cons, e2, showStats_eq, List.replicate_succ]

theorem foldl_step_calls_any {σ : Type} (servers : List σ) (events : List Event)
    (st : LoopState σ) :
    (events.foldl (step servers) (step servers st Event.sig)).calls = st.calls := by
  cases h : st.done with
  | true =>
    have hs : step servers st Event.sig = st := by simp [step, h]
    rw [hs, foldl_step_done servers events st h]
  | false =>
    have hs : step servers st Event.sig = { st with done := true } := by simp [step, h]
    rw [hs, foldl_step_done servers events _ rfl]

/-- C8: the collector calls made by `main` are the handle list, in order,
repeated `1 + k` times, where `k` is the number of ticks received before the
first termination signal; one sweep is made before any event, what is received
after a signal adds no call, and with an empty handle list no call is made. -/
theorem mainLoop_calls {σ : Type} (servers : List σ) (events : List Event) :
    (mainLoop servers events).calls =
        (List.replicate (1 + (events.takeWhile (fun e => e == Event.tick)).length)
          servers).flatten ∧
      (mainLoop servers []).calls = servers ∧
      (∀ received later : List Event,
        (mainLoop servers (received ++ Event.sig :: later)).calls =
          (mainLoop servers received).calls) ∧
      (mainLoop ([] : List σ) events).calls = [] := by
  have hmain : ∀ (srv : List σ) (evs : List Event), (mainLoop srv evs).calls =
      (List.replicate (1 + (evs.takeWhile (fun e => e == Event.tick)).length) srv).flatten := by
    intro srv evs
    rw [mainLoop, foldl_step_calls srv evs _ rfl, showStats_eq, Nat.add_comm 1,
      List.replicate_succ]
    simp
  refine ⟨hmain servers events, ?_, ?_, ?_⟩
  · simp [mainLoop, showStats_eq]
  · intro received later
    rw [mainLoop, List.foldl_append, List.foldl_cons, foldl_step_calls_any]
    rfl
  · rw [hmain]
    simp

end Rtop
